import Mathlib

/-!
Verification development for the obsidian-tools repository
(src/todo_migrator.py and src/weekly_notes_archiver.py).

The Python source is shallowly embedded: each function below is a direct
translation of the corresponding Python function, operating on explicit
strings, character lists and a small record of filesystem facts. File I/O
and console printing are modelled by passing file contents in and
returning the would-be written contents (or a flag that a write happened)
out.
-/

namespace ObsidianTools

/-- Whitespace test matching the Python regex class backslash-s on ASCII
characters: space, tab, newline, carriage return, vertical tab, form feed.
(Unicode whitespace beyond ASCII is not modelled.) -/
def isPySpace (c : Char) : Bool :=
  c == ' ' || c == '\t' || c == '\n' || c == '\r' || c == '\x0b' || c == '\x0c'

/-- One checklist line of a note, as produced by `parse_todo_section`
(todo_migrator.py lines 61 to 67): position in the source text, count of
leading whitespace characters, completion flag, text after the checkbox
marker, and the verbatim source line. -/
structure TodoItem where
  line_num : Nat
  indent : Nat
  completed : Bool
  text : String
  original_line : String
deriving DecidableEq, Inhabited, Repr

/-- Model of the Python `content.split(chr(10))`: cut a character list at
every newline. The accumulator holds the current line reversed. -/
def split_lines (acc : List Char) : List Char → List String
  | [] => [⟨acc.reverse⟩]
  | c :: rest =>
      if c = '\n' then ⟨acc.reverse⟩ :: split_lines [] rest
      else split_lines (c :: acc) rest

/-- Match one-or-more whitespace characters (regex backslash-s plus) at the
head of a character list, returning the remainder on success. -/
def dropSpacesPlus : List Char → Option (List Char)
  | [] => none
  | c :: rest => if isPySpace c then some (rest.dropWhile isPySpace) else none

/-- The level-2 heading test of todo_migrator.py line 45 and line 174: the
case-insensitive anchored regex hash-hash, spaces, To, spaces, do, optional
trailing spaces. -/
def isTodoHeading (l : String) : Bool :=
  match l.data with
  | '#' :: '#' :: rest =>
      match dropSpacesPlus rest with
      | some (t :: o :: r2) =>
          (t == 'T' || t == 't') && (o == 'O' || o == 'o') &&
          (match dropSpacesPlus r2 with
           | some (d :: o2 :: r4) =>
               (d == 'D' || d == 'd') && (o2 == 'O' || o2 == 'o') && r4.all isPySpace
           | some _ => false
           | none => false)
      | some _ => false
      | none => false
  | _ => false

/-- The section-start test of todo_migrator.py line 50 and line 193: the
regex hash-hash followed by at least one whitespace character. -/
def isSectionStart (l : String) : Bool :=
  match l.data with
  | '#' :: '#' :: c :: _ => isPySpace c
  | _ => false

/-- Model of the regex group dot-plus followed by the end anchor: one or
more non-newline characters consuming the whole input, or consuming all but
one trailing newline. Returns the captured text. -/
def matchTextToEnd (t : List Char) : Option String :=
  if t ≠ [] ∧ (∀ c ∈ t, c ≠ '\n') then some ⟨t⟩
  else if t.getLast? = some '\n' ∧ t.dropLast ≠ [] ∧ (∀ c ∈ t.dropLast, c ≠ '\n') then
    some ⟨t.dropLast⟩
  else none

/-- The checklist-line regex of todo_migrator.py line 55: optional leading
whitespace (captured, greedy: since the next literal is a dash, the match
is exactly the maximal whitespace run), the literal dash space bracket, a
space or lowercase x, bracket space, then the nonempty rest of the line.
Returns (indent, completed, text) on a match. -/
def parse_checklist_line (cs : List Char) : Option (Nat × Bool × String) :=
  let ws := cs.takeWhile isPySpace
  match cs.dropWhile isPySpace with
  | '-' :: ' ' :: '[' :: m :: ']' :: ' ' :: t =>
      if m == ' ' || m == 'x' then
        match matchTextToEnd t with
        | some txt => some (ws.length, m == 'x', txt)
        | none => none
      else none
  | _ => none

/-- True when the Python `line.strip()` is nonempty, that is the line holds
at least one non-whitespace character. -/
def isNonBlank (l : String) : Bool :=
  l.data.any (fun c => !isPySpace c)

/-- The loop body of `parse_todo_section` (todo_migrator.py lines 43 to 67)
over the remaining lines: `i` is the current line index and `inSec` the
in-todo-section flag. A To-do heading line turns the flag on and is
skipped; inside the section a further level-2 heading stops the scan;
non-blank lines matching the checklist pattern become items; everything
else is skipped. -/
def parse_todo_aux : List String → Nat → Bool → List TodoItem
  | [], _, _ => []
  | l :: ls, i, inSec =>
      if isTodoHeading l then parse_todo_aux ls (i + 1) true
      else if inSec && isSectionStart l then []
      else if inSec && isNonBlank l then
        match parse_checklist_line l.data with
        | some (ind, comp, txt) =>
            { line_num := i, indent := ind, completed := comp,
              text := txt, original_line := l } :: parse_todo_aux ls (i + 1) inSec
        | none => parse_todo_aux ls (i + 1) inSec
      else parse_todo_aux ls (i + 1) inSec

/-- Embedding of `parse_todo_section` (todo_migrator.py lines 36 to 69):
split the note content on newlines and scan for the To-do section. -/
def parse_todo_section (content : String) : List TodoItem :=
  parse_todo_aux (split_lines [] content.data) 0 false

/-- The loop of `group_todos_by_hierarchy` (todo_migrator.py lines 76 to
85): `cur` is the currently open group. An item with indent zero closes the
open group (when nonempty) and opens a new one; any other item is appended
to the open group; at the end a nonempty open group is emitted. -/
def group_aux (cur : List TodoItem) : List TodoItem → List (List TodoItem)
  | [] => if cur.isEmpty then [] else [cur]
  | t :: ts =>
      if t.indent = 0 then
        if cur.isEmpty then group_aux [t] ts else cur :: group_aux [t] ts
      else group_aux (cur ++ [t]) ts

/-- Embedding of `group_todos_by_hierarchy` (todo_migrator.py lines 71 to
87). -/
def group_todos_by_hierarchy (todos : List TodoItem) : List (List TodoItem) :=
  group_aux [] todos

/-- Embedding of `should_migrate_group` (todo_migrator.py lines 89 to 95):
false on an empty group, else true when any item of the group is
incomplete. -/
def should_migrate_group (group : List TodoItem) : Bool :=
  if group.isEmpty then false
  else group.any (fun todo => !todo.completed)

/-- The provenance-tag position test of todo_migrator.py line 104: does the
character list start with the literal open-paren from space, four digits,
dash, two digits, dash, two digits, close-paren. -/
def tagAt : List Char → Bool
  | '(' :: 'f' :: 'r' :: 'o' :: 'm' :: ' ' :: a :: b :: c :: d :: '-' ::
      e :: f :: '-' :: g :: h :: ')' :: _ =>
      a.isDigit && b.isDigit && c.isDigit && d.isDigit &&
      e.isDigit && f.isDigit && g.isDigit && h.isDigit
  | _ => false

/-- Search over all suffixes, modelling an unanchored regex search. -/
def hasDateTagAux : List Char → Bool
  | [] => false
  | c :: cs => tagAt (c :: cs) || hasDateTagAux cs

/-- The regex search of todo_migrator.py line 104 for an existing
provenance tag anywhere in the text. -/
def hasDateTag (text : String) : Bool :=
  hasDateTagAux text.data

/-- The text transformation of `format_migrated_todo` (todo_migrator.py
lines 100 to 105): append the provenance tag built from the source date
string unless a tag is already present. -/
def tagged_text (text date_str : String) : String :=
  if hasDateTag text then text
  else text ++ " (from " ++ date_str ++ ")"

/-- Embedding of `format_migrated_todo` (todo_migrator.py lines 97 to
111): the source-date string stands for the Python
`original_date.strftime` result. Rebuilds the line from the indent, the
checkbox for the preserved completion state, and the tagged text. -/
def format_migrated_todo (todo : TodoItem) (date_str : String) : String :=
  let text := tagged_text todo.text date_str
  let checkbox := if todo.completed then "[x]" else "[ ]"
  let indent : String := ⟨List.replicate todo.indent ' '⟩
  indent ++ "- " ++ checkbox ++ " " ++ text

/-- Embedding of `extract_todos_from_note` (todo_migrator.py lines 113 to
131) on the note content (file existence and read errors, which both yield
an empty result in the source, are handled by the caller model): parse,
group, and keep the groups that need migration. -/
def extract_todos_from_note (content : String) : List (List TodoItem) :=
  let todos := parse_todo_section content
  let groups := group_todos_by_hierarchy todos
  groups.filter should_migrate_group

/-- The new-note template of `create_today_note_if_missing`
(todo_migrator.py lines 142 to 149), with the current date rendered as
`today_str`. -/
def daily_template (today_str : String) : String :=
  "# " ++ today_str ++ "\n\n## To do\n\n\n## Notes\n\n"

/-- The checklist-start test of todo_migrator.py line 193: the regex
optional whitespace, dash, space, open bracket. -/
def isChecklistStart (l : String) : Bool :=
  match l.data.dropWhile isPySpace with
  | '-' :: ' ' :: '[' :: _ => true
  | _ => false

/-- The first skipping loop of `add_todos_to_note` (todo_migrator.py lines
186 to 187): count the blank lines directly after the section heading. -/
def count_leading_blank : List String → Nat
  | [] => 0
  | l :: ls => if isNonBlank l then 0 else 1 + count_leading_blank ls

/-- The second skipping loop of `add_todos_to_note` (todo_migrator.py
lines 190 to 198): advance over existing checklist lines, stopping at a
further section heading, at non-checklist content, or at a blank line. -/
def count_existing_todos : List String → Nat
  | [] => 0
  | l :: ls =>
      if isSectionStart l || (isNonBlank l && !isChecklistStart l) then 0
      else if isNonBlank l then 1 + count_existing_todos ls
      else 0

/-- Index of the first To-do heading line (todo_migrator.py lines 172 to
176). -/
def find_heading_idx : List String → Option Nat
  | [] => none
  | l :: ls =>
      if isTodoHeading l then some 0
      else (find_heading_idx ls).map (· + 1)

/-- Model of the Python newline join of a line list. -/
def join_lines : List String → String
  | [] => ""
  | [l] => l
  | l :: ls => l ++ "\n" ++ join_lines ls

/-- Embedding of `add_todos_to_note` (todo_migrator.py lines 160 to 224)
on the target-note content: `none` models the reported failure (warning
printed, False returned, nothing written) when no To-do heading exists;
`some c` models a successful write of the new content `c`. Read and write
I/O errors are not modelled. -/
def add_todos_to_note (content : String) (todo_groups : List (List TodoItem))
    (date_str : String) : Option String :=
  let lines := split_lines [] content.data
  match find_heading_idx lines with
  | none => none
  | some sec =>
      let afterHead := lines.drop (sec + 1)
      let nblank := count_leading_blank afterHead
      let nexist := count_existing_todos (afterHead.drop nblank)
      let insert_line := sec + 1 + nblank + nexist
      let migrated := todo_groups.flatten.map (fun td => format_migrated_todo td date_str)
      let migrated2 :=
        if migrated ≠ [] ∧ insert_line > sec + 1 ∧ isNonBlank (lines.getD (insert_line - 1) "")
        then "" :: migrated else migrated
      let new_lines :=
        if migrated.isEmpty then lines
        else lines.take insert_line ++ migrated2 ++ lines.drop insert_line
      some (join_lines new_lines)

/-- Outcome of one `migrate_todos` run (todo_migrator.py lines 226 to
282): the returned success flag (the process exit code is 0 when it is
true and 1 otherwise, todo_migrator.py line 328), the template content
written when the target note was created, and the new target content
written by `add_todos_to_note`. `none` in the last two fields means the
corresponding file write did not happen. -/
structure MigrateOutcome where
  success : Bool
  createdTarget : Option String
  writtenTarget : Option String
deriving DecidableEq, Repr

/-- Embedding of `migrate_todos` (todo_migrator.py lines 226 to 282). The
filesystem is modelled by the existence flags and contents of the source
and target notes; `source_date_str` and `today_str` stand for the
formatted dates. Missing source, or nothing to migrate, or a dry run all
return success with no writes; otherwise the target is created from the
template when missing and the todos are spliced in by
`add_todos_to_note`. -/
def migrate_todos (sourceExists : Bool) (sourceContent : String)
    (targetExists : Bool) (targetContent : String)
    (source_date_str today_str : String) (dry_run : Bool) : MigrateOutcome :=
  if !sourceExists then ⟨true, none, none⟩
  else
    let incomplete_groups := extract_todos_from_note sourceContent
    if incomplete_groups.isEmpty then ⟨true, none, none⟩
    else if dry_run then ⟨true, none, none⟩
    else
      let created : Option String :=
        if targetExists then none else some (daily_template today_str)
      let tContent := match created with
        | some t => t
        | none => targetContent
      match add_todos_to_note tContent incomplete_groups source_date_str with
      | some newC => ⟨true, created, some newC⟩
      | none => ⟨false, created, none⟩

/-- A Python datetime, modelled as a calendar day number (days since
1970-01-01) together with the time of day in seconds. The day-granularity
timedelta arithmetic of the source only ever changes the day number. -/
structure Datetime where
  days : Int
  tod : Nat
deriving DecidableEq, Repr

/-- The Python `datetime.weekday`: Monday is 0 through Sunday is 6. Day
number 0 (1970-01-01) is a Thursday, index 3. -/
def weekday (d : Datetime) : Int :=
  (d.days + 3) % 7

/-- One week specification accepted by `get_week_range`
(weekly_notes_archiver.py lines 21 to 57). `dateSpec` carries the day
number of a date string already parsed by strptime (whose result is at
midnight); `invalidSpec` stands for any other string or value, on which
the source raises ValueError. -/
inductive WeekSpec where
  | noSpec
  | lastSpec
  | previousSpec
  | currentSpec
  | thisSpec
  | intSpec (n : Int)
  | dateSpec (d : Int)
  | invalidSpec
deriving DecidableEq, Repr

/-- The reference-date resolution of `get_week_range`
(weekly_notes_archiver.py lines 34 to 50), relative to the current
datetime `now`. -/
def resolve_target (spec : WeekSpec) (now : Datetime) : Option Datetime :=
  match spec with
  | .noSpec | .lastSpec | .previousSpec => some ⟨now.days - 7, now.tod⟩
  | .currentSpec | .thisSpec => some now
  | .intSpec n => some ⟨now.days - 7 * n, now.tod⟩
  | .dateSpec d => some ⟨d, 0⟩
  | .invalidSpec => none

/-- The week-boundary computation of `get_week_range`
(weekly_notes_archiver.py lines 52 to 57): Monday is the reference date
minus its weekday index, Sunday is Monday plus six days. Day arithmetic
leaves the time of day unchanged. -/
def week_range_of (t : Datetime) : Datetime × Datetime :=
  let m := t.days - weekday t
  (⟨m, t.tod⟩, ⟨m + 6, t.tod⟩)

/-- Embedding of `get_week_range` (weekly_notes_archiver.py lines 21 to
57); `none` models the raised ValueError on an invalid specification. -/
def get_week_range (spec : WeekSpec) (now : Datetime) : Option (Datetime × Datetime) :=
  (resolve_target spec now).map week_range_of

/-- Day numbers from `start` to `stop` inclusive, the iteration order of
the while loop of `find_daily_notes_for_week` (weekly_notes_archiver.py
lines 62 to 74); the loop compares datetimes that share a time of day, so
the comparison is on day numbers. -/
def days_between (start stop : Int) : List Int :=
  if stop < start then []
  else (List.range ((stop - start).toNat + 1)).map (fun i => start + i)

/-- Embedding of `find_daily_notes_for_week` (weekly_notes_archiver.py
lines 59 to 76): the filesystem is modelled by the predicate `noteExists`
on day numbers (covering both the bare and the .md file name probe). -/
def find_daily_notes_for_week (noteExists : Int → Bool) (start stop : Int) : List Int :=
  (days_between start stop).filter noteExists

/-- A filesystem with no daily notes at all. -/
def no_notes : Int → Bool := fun _ => false

/-- Outcome of one `archive_week` run (weekly_notes_archiver.py lines 144
to 222): the returned success flag (process exit code 0 when true, 1
otherwise, weekly_notes_archiver.py line 260), whether the weekly archive
folder was created, and whether any file moves were issued. -/
structure ArchiveOutcome where
  success : Bool
  folderCreated : Bool
  movesIssued : Bool
deriving DecidableEq, Repr

/-- Embedding of `archive_week` (weekly_notes_archiver.py lines 144 to
222). Missing vault or daily-notes folder, or an invalid week
specification, return failure before any write; an empty week returns
success; a dry run returns success before the folder creation and the
moves; otherwise the folder is created and the moves issued (individual
move errors do not change the returned success, line 222). Screenshot
scanning only reads files and does not affect the outcome fields, so it is
not modelled. -/
def archive_week (vaultExists dailyDirExists : Bool) (spec : WeekSpec)
    (now : Datetime) (noteExists : Int → Bool) (dry_run : Bool) : ArchiveOutcome :=
  if !vaultExists then ⟨false, false, false⟩
  else if !dailyDirExists then ⟨false, false, false⟩
  else
    match get_week_range spec now with
    | none => ⟨false, false, false⟩
    | some (monday, sunday) =>
        let daily_notes := find_daily_notes_for_week noteExists monday.days sunday.days
        if daily_notes.isEmpty then ⟨true, false, false⟩
        else if dry_run then ⟨true, false, false⟩
        else ⟨true, true, true⟩

/-- Shape test for a formatted date string: exactly four digits, dash, two
digits, dash, two digits, the shape produced by strftime with the
year-month-day format of todo_migrator.py line 101. -/
def isDateDigits (s : String) : Bool :=
  match s.data with
  | [a, b, c, d, e, f, g, h, i, j] =>
      a.isDigit && b.isDigit && c.isDigit && d.isDigit && e == '-' &&
      f.isDigit && g.isDigit && h == '-' && i.isDigit && j.isDigit
  | _ => false

/-! ## Theorems -/

/-- C1: `should_migrate_group` returns true if and only if at least one
item of the group, at any indent level, is incomplete; in particular a
fully completed group is never selected for migration. -/
theorem c1_should_migrate_group_iff (group : List TodoItem) :
    should_migrate_group group = true ↔ ∃ todo ∈ group, todo.completed = false := by
  cases group with
  | nil => simp [should_migrate_group]
  | cons t ts => simp [should_migrate_group, List.any_eq_true]

theorem group_aux_flatten (ts : List TodoItem) :
    ∀ cur, (group_aux cur ts).flatten = cur ++ ts := by
  induction ts with
  | nil =>
      intro cur
      by_cases h : cur.isEmpty
      · simp [group_aux, h, List.isEmpty_iff.mp h]
      · simp [group_aux, h]
  | cons t ts ih =>
      intro cur
      by_cases h0 : t.indent = 0
      · by_cases hc : cur.isEmpty
        · simp [group_aux, h0, hc, ih, List.isEmpty_iff.mp hc]
        · simp [group_aux, h0, hc, ih]
      · simp [group_aux, h0, ih]

/-- C10: grouping loses nothing and invents nothing: the concatenation of
the groups returned by `group_todos_by_hierarchy`, in order, is exactly
the input item sequence. -/
theorem c10_grouping_concat (todos : List TodoItem) :
    (group_todos_by_hierarchy todos).flatten = todos := by
  simpa [group_todos_by_hierarchy] using group_aux_flatten todos []

theorem parse_todo_aux_no_heading (lines : List String)
    (h : ∀ l ∈ lines, isTodoHeading l = false) :
    ∀ i, parse_todo_aux lines i false = [] := by
  induction lines with
  | nil => intro i; rfl
  | cons l ls ih =>
      intro i
      have hl : isTodoHeading l = false := h l (by simp)
      simp only [parse_todo_aux, hl, Bool.false_eq_true, if_false, Bool.false_and]
      exact ih (fun x hx => h x (by simp [hx])) (i + 1)

/-- C7: on a note text none of whose lines is a level-2 To-do heading,
`parse_todo_section` returns the empty item sequence (it is a total
function, so no error is signalled). -/
theorem c7_no_heading_empty (content : String)
    (h : ∀ l ∈ split_lines [] content.data, isTodoHeading l = false) :
    parse_todo_section content = [] :=
  parse_todo_aux_no_heading _ h 0

/-- Witness for C7 on a concrete note text with no To-do heading. -/
theorem c7_witness :
    (∀ l ∈ split_lines [] "# Notes\nhello".data, isTodoHeading l = false)
    ∧ parse_todo_section "# Notes\nhello" = [] :=
  ⟨by decide, c7_no_heading_empty _ (by decide)⟩

theorem isDateDigits_shape (s : String) (hds : isDateDigits s = true) :
    ∃ a b c d f g i j, s.data = [a, b, c, d, '-', f, g, '-', i, j]
      ∧ a.isDigit = true ∧ b.isDigit = true ∧ c.isDigit = true ∧ d.isDigit = true
      ∧ f.isDigit = true ∧ g.isDigit = true ∧ i.isDigit = true ∧ j.isDigit = true := by
  obtain ⟨l⟩ := s
  unfold isDateDigits at hds
  dsimp only at hds
  split at hds
  next a b c d e f g h i j =>
    simp only [Bool.and_eq_true, beq_iff_eq] at hds
    obtain ⟨⟨⟨⟨⟨⟨⟨⟨⟨ha, hb⟩, hc⟩, hd⟩, he⟩, hf⟩, hg⟩, hh⟩, hi⟩, hj⟩ := hds
    subst he hh
    exact ⟨a, b, c, d, f, g, i, j, rfl, ha, hb, hc, hd, hf, hg, hi, hj⟩
  next =>
    simp at hds

theorem hasDateTagAux_append (xs ys : List Char) (h : hasDateTagAux ys = true) :
    hasDateTagAux (xs ++ ys) = true := by
  induction xs with
  | nil => exact h
  | cons c cs ih =>
      simp only [List.cons_append, hasDateTagAux, Bool.or_eq_true]
      exact Or.inr ih

theorem str_data_append (a b : String) : (a ++ b).data = a.data ++ b.data := by
  cases a; cases b; rfl

theorem hasDateTag_appended (text ds : String) (hds : isDateDigits ds = true) :
    hasDateTag (text ++ " (from " ++ ds ++ ")") = true := by
  obtain ⟨a, b, c, d, f, g, i, j, hdata, ha, hb, hc, hd, hf, hg, hi, hj⟩ :=
    isDateDigits_shape ds hds
  have h1 : (text ++ " (from " ++ ds ++ ")").data
      = (text.data ++ [' ']) ++
        ('(' :: 'f' :: 'r' :: 'o' :: 'm' :: ' ' ::
          (a :: b :: c :: d :: '-' :: f :: g :: '-' :: i :: j :: [')'])) := by
    simp [str_data_append, hdata]
  rw [hasDateTag, h1]
  apply hasDateTagAux_append
  simp [hasDateTagAux, tagAt, ha, hb, hc, hd, hf, hg, hi, hj]

/-- C6: provenance tagging is idempotent. `tagged_text` is the text
transformation performed by `format_migrated_todo`: on a text that already
holds a tag it appends nothing; after one application a tag is present;
hence applying it twice (with any two date strings of the strftime shape)
yields exactly the same text, and so the same tag count, as applying it
once. -/
theorem c6_tag_idempotent (text ds ds2 : String) (hds : isDateDigits ds = true) :
    (hasDateTag text = true → tagged_text text ds = text)
    ∧ hasDateTag (tagged_text text ds) = true
    ∧ tagged_text (tagged_text text ds) ds2 = tagged_text text ds := by
  have htag : hasDateTag (tagged_text text ds) = true := by
    by_cases h : hasDateTag text
    · rw [tagged_text, if_pos h]; exact h
    · simp only [tagged_text, h, Bool.false_eq_true, if_false]
      exact hasDateTag_appended text ds hds
  refine ⟨fun h => by simp [tagged_text, h], htag, ?_⟩
  generalize hX : tagged_text text ds = X at htag ⊢
  simp [tagged_text, htag]

/-- Witness for C6 at a concrete text and concrete dates. -/
theorem c6_witness :
    isDateDigits "2025-01-02" = true
    ∧ ((hasDateTag "write tests" = true → tagged_text "write tests" "2025-01-02" = "write tests")
       ∧ hasDateTag (tagged_text "write tests" "2025-01-02") = true
       ∧ tagged_text (tagged_text "write tests" "2025-01-02") "2024-03-04"
           = tagged_text "write tests" "2025-01-02") :=
  ⟨by decide, c6_tag_idempotent "write tests" "2025-01-02" "2024-03-04" (by decide)⟩

/-- C3: the week boundary computation of `get_week_range` returns Monday
as the reference date minus its weekday index and Sunday as Monday plus
six days, and for every integer specifier evaluated at the same now the
Monday of resolve(N) is the Monday of resolve(0) minus 7 N days. -/
theorem c3_week_arithmetic (now : Datetime) :
    (∀ t : Datetime, (week_range_of t).1.days = t.days - weekday t
        ∧ (week_range_of t).2.days = (week_range_of t).1.days + 6)
    ∧ ∀ (n : Int) (m0 s0 mn sn : Datetime),
        get_week_range (WeekSpec.intSpec 0) now = some (m0, s0) →
        get_week_range (WeekSpec.intSpec n) now = some (mn, sn) →
        mn.days = m0.days - 7 * n := by
  constructor
  · intro t
    simp [week_range_of]
  · intro n m0 s0 mn sn h0 hn
    simp only [get_week_range, resolve_target, week_range_of, weekday,
      Option.map_some', Option.some.injEq, Prod.mk.injEq] at h0 hn
    obtain ⟨h0m, h0s⟩ := h0
    obtain ⟨hnm, hns⟩ := hn
    subst h0m hnm
    dsimp only
    omega

/-- Witness for C3 at a concrete now (day 10, a Sunday) and N = 2. -/
theorem c3_witness :
    get_week_range (WeekSpec.intSpec 0) ⟨10, 0⟩ = some (⟨4, 0⟩, ⟨10, 0⟩)
    ∧ get_week_range (WeekSpec.intSpec 2) ⟨10, 0⟩ = some (⟨-10, 0⟩, ⟨-4, 0⟩)
    ∧ (⟨-10, 0⟩ : Datetime).days = (⟨4, 0⟩ : Datetime).days - 7 * 2 :=
  ⟨by decide, by decide,
    (c3_week_arithmetic ⟨10, 0⟩).2 2 ⟨4, 0⟩ ⟨10, 0⟩ ⟨-10, 0⟩ ⟨-4, 0⟩ (by decide) (by decide)⟩

/-- C4 fails on the code: `get_week_range` keeps the time-of-day component
of the reference datetime in both returned boundaries instead of
discarding it. At a now with time-of-day 5 seconds both boundaries carry
time-of-day 5, not a date-only value. -/
theorem c4_counterexample :
    get_week_range WeekSpec.currentSpec ⟨3, 5⟩ = some (⟨-3, 5⟩, ⟨3, 5⟩)
    ∧ (⟨-3, 5⟩ : Datetime).tod ≠ 0 ∧ (⟨3, 5⟩ : Datetime).tod ≠ 0 := by
  refine ⟨by decide, by decide, by decide⟩

/-- C4 amended: the boundaries returned by `get_week_range` share one
time-of-day value, namely midnight for a parsed date-string specification
and the time-of-day of the current clock otherwise; the time-of-day is
preserved, not discarded. -/
theorem c4_amended (spec : WeekSpec) (now : Datetime) (monday sunday : Datetime)
    (h : get_week_range spec now = some (monday, sunday)) :
    monday.tod = sunday.tod
    ∧ (∀ d, spec = WeekSpec.dateSpec d → monday.tod = 0)
    ∧ ((∀ d, spec ≠ WeekSpec.dateSpec d) → monday.tod = now.tod) := by
  cases spec <;>
    simp only [get_week_range, resolve_target, week_range_of, Option.map_some',
      Option.some.injEq, Prod.mk.injEq] at h <;>
    obtain ⟨hm, hs⟩ := h <;>
    subst hm <;> subst hs <;>
    refine ⟨rfl, ?_, ?_⟩ <;> intro hd <;> simp_all

/-- Witness for the amended C4 at a concrete specification and clock. -/
theorem c4_amended_witness :
    get_week_range WeekSpec.currentSpec ⟨3, 5⟩ = some (⟨-3, 5⟩, ⟨3, 5⟩)
    ∧ ((⟨-3, 5⟩ : Datetime).tod = (⟨3, 5⟩ : Datetime).tod
       ∧ (∀ d, WeekSpec.currentSpec = WeekSpec.dateSpec d → (⟨-3, 5⟩ : Datetime).tod = 0)
       ∧ ((∀ d, WeekSpec.currentSpec ≠ WeekSpec.dateSpec d)
            → (⟨-3, 5⟩ : Datetime).tod = (⟨3, 5⟩ : Datetime).tod)) :=
  ⟨by decide, c4_amended WeekSpec.currentSpec ⟨3, 5⟩ ⟨-3, 5⟩ ⟨3, 5⟩ (by decide)⟩

theorem find_heading_idx_none (lines : List String)
    (h : ∀ l ∈ lines, isTodoHeading l = false) :
    find_heading_idx lines = none := by
  induction lines with
  | nil => rfl
  | cons l ls ih =>
      have hl : isTodoHeading l = false := h l (by simp)
      simp only [find_heading_idx, hl, Bool.false_eq_true, if_false]
      rw [ih (fun x hx => h x (by simp [hx]))]
      rfl

/-- C5 amended: when the target note exists but holds no To-do heading and
the source note yields at least one group to migrate, `add_todos_to_note`
reports the missing section by returning `none` without raising (the
source prints a warning at that point), the target content is left
unchanged (no write happens), and `migrate_todos` returns failure, so the
process exit code is 1, not 0. -/
theorem c5_amended (sourceContent targetContent source_date_str today_str : String)
    (hheading : ∀ l ∈ split_lines [] targetContent.data, isTodoHeading l = false)
    (hgroups : extract_todos_from_note sourceContent ≠ []) :
    add_todos_to_note targetContent (extract_todos_from_note sourceContent) source_date_str
      = none
    ∧ migrate_todos true sourceContent true targetContent source_date_str today_str false
      = ⟨false, none, none⟩ := by
  have hadd : ∀ gs ds, add_todos_to_note targetContent gs ds = none := by
    intro gs ds
    rw [add_todos_to_note, find_heading_idx_none _ hheading]
  refine ⟨hadd _ _, ?_⟩
  simp only [migrate_todos, Bool.not_true, Bool.false_eq_true, if_false,
    List.isEmpty_iff, hgroups, if_true, hadd]

/-- C5 fails on the code as stated: at a concrete target note with no
To-do section (and a source with one incomplete todo), the run reports the
warning and leaves the target unchanged, but `migrate_todos` returns
failure, so the process exits with code 1, not the claimed code 0. -/
theorem c5_counterexample :
    (∀ l ∈ split_lines [] "# x\nstuff".data, isTodoHeading l = false)
    ∧ migrate_todos true "## To do\n- [ ] buy milk" true "# x\nstuff"
        "2025-08-01" "2025-08-02" false = ⟨false, none, none⟩ := by
  refine ⟨by decide, by decide⟩

/-- Witness for the amended C5 at concrete source and target notes. -/
theorem c5_witness :
    (∀ l ∈ split_lines [] "# x\nstuff".data, isTodoHeading l = false)
    ∧ extract_todos_from_note "## To do\n- [ ] buy milk" ≠ []
    ∧ (add_todos_to_note "# x\nstuff"
        (extract_todos_from_note "## To do\n- [ ] buy milk") "2025-08-01" = none
       ∧ migrate_todos true "## To do\n- [ ] buy milk" true "# x\nstuff"
           "2025-08-01" "2025-08-02" false = ⟨false, none, none⟩) :=
  ⟨by decide, by decide,
    c5_amended "## To do\n- [ ] buy milk" "# x\nstuff" "2025-08-01" "2025-08-02"
      (by decide) (by decide)⟩

/-- C9 amended: with the dry-run flag set neither tool issues any write:
`migrate_todos` creates nothing, writes nothing and always returns
success; `archive_week` creates no folder and issues no moves, and returns
success whenever its pre-checks pass (vault and daily-notes folder exist
and the week specification is valid). As stated the claim fails, because
`archive_week` returns failure on a missing vault even under dry-run, see
the counterexample. -/
theorem c9_amended :
    (∀ (sourceExists targetExists : Bool) (sourceContent targetContent sds tds : String),
        migrate_todos sourceExists sourceContent targetExists targetContent sds tds true
          = ⟨true, none, none⟩)
    ∧ (∀ (vaultExists dailyDirExists : Bool) (spec : WeekSpec) (now : Datetime)
          (noteExists : Int → Bool),
        (archive_week vaultExists dailyDirExists spec now noteExists true).folderCreated = false
        ∧ (archive_week vaultExists dailyDirExists spec now noteExists true).movesIssued = false
        ∧ (vaultExists = true → dailyDirExists = true →
            get_week_range spec now ≠ none →
            (archive_week vaultExists dailyDirExists spec now noteExists true).success = true)) := by
  constructor
  · intro se te sc tc sds tds
    simp [migrate_todos, ite_self]
  · intro ve de spec now ex
    rw [archive_week]
    cases ve
    · simp
    · cases de
      · simp
      · simp only [Bool.not_true, Bool.false_eq_true, if_false]
        cases hw : get_week_range spec now with
        | none => simp
        | some p =>
            obtain ⟨monday, sunday⟩ := p
            dsimp only
            split
            · simp
            · simp

/-- Witness for the amended C9 at concrete inputs for both tools. -/
theorem c9_witness :
    migrate_todos true "## To do\n- [ ] a" true "# t" "2025-01-01" "2025-01-02" true
      = ⟨true, none, none⟩
    ∧ (archive_week true true WeekSpec.currentSpec ⟨0, 0⟩ no_notes true).folderCreated = false
    ∧ (archive_week true true WeekSpec.currentSpec ⟨0, 0⟩ no_notes true).movesIssued = false
    ∧ (archive_week true true WeekSpec.currentSpec ⟨0, 0⟩ no_notes true).success = true :=
  ⟨c9_amended.1 true true "## To do\n- [ ] a" "# t" "2025-01-01" "2025-01-02",
   (c9_amended.2 true true WeekSpec.currentSpec ⟨0, 0⟩ no_notes).1,
   (c9_amended.2 true true WeekSpec.currentSpec ⟨0, 0⟩ no_notes).2.1,
   (c9_amended.2 true true WeekSpec.currentSpec ⟨0, 0⟩ no_notes).2.2 rfl rfl (by decide)⟩

/-- C9 fails on the code as stated: under dry-run `archive_week` still
returns failure when the vault is missing, so a dry run does not return
success for every input (no write is issued there either, as the amended
theorem shows). -/
theorem c9_counterexample :
    (archive_week false true WeekSpec.currentSpec ⟨0, 0⟩ no_notes true).success = false := by
  rfl


theorem group_aux_append_indented (pre : List TodoItem) :
    ∀ (cur rest : List TodoItem), (∀ t ∈ pre, t.indent ≠ 0) →
      group_aux cur (pre ++ rest) = group_aux (cur ++ pre) rest := by
  induction pre with
  | nil => intro cur rest _; simp
  | cons p ps ih =>
      intro cur rest h
      have hp : p.indent ≠ 0 := h p (by simp)
      simp only [List.cons_append, group_aux, hp, if_false, List.append_eq]
      rw [ih (cur ++ [p]) rest (fun x hx => h x (by simp [hx]))]
      simp

theorem group_aux_heads (ts : List TodoItem) :
    ∀ (z : TodoItem) (cur : List TodoItem), z.indent = 0 →
      ∀ g ∈ group_aux (z :: cur) ts, g ≠ [] ∧ g.headI.indent = 0 := by
  induction ts with
  | nil =>
      intro z cur hz g hg
      simp only [group_aux, List.isEmpty_cons, Bool.false_eq_true, if_false,
        List.mem_singleton] at hg
      subst hg
      exact ⟨by simp, hz⟩
  | cons t ts ih =>
      intro z cur hz g hg
      by_cases h0 : t.indent = 0
      · simp only [group_aux, h0, if_true, List.isEmpty_cons, Bool.false_eq_true,
          if_false, List.mem_cons] at hg
        rcases hg with rfl | hg
        · exact ⟨by simp, hz⟩
        · exact ih t [] h0 g hg
      · simp only [group_aux, h0, if_false, List.cons_append] at hg
        exact ih z (cur ++ [t]) hz g hg

theorem group_aux_length (ts : List TodoItem) :
    ∀ cur, cur ≠ [] →
      (group_aux cur ts).length = 1 + ts.countP (fun t => t.indent == 0) := by
  induction ts with
  | nil =>
      intro cur h
      simp [group_aux, h]
  | cons t ts ih =>
      intro cur h
      by_cases h0 : t.indent = 0
      · rw [group_aux]
        simp only [h0, if_true, List.isEmpty_iff, h, if_false]
        simp only [List.length_cons, List.countP_cons, h0, beq_self_eq_true, if_pos]
        rw [ih [t] (by simp)]
        omega
      · rw [group_aux]
        simp only [h0, if_false]
        rw [ih (cur ++ [t]) (by simp)]
        simp [List.countP_cons, h0]

theorem dropWhile_head_not {α} (p : α → Bool) :
    ∀ (l : List α) (z : α) (ts : List α), l.dropWhile p = z :: ts → p z = false := by
  intro l
  induction l with
  | nil => intro z ts h; simp [List.dropWhile] at h
  | cons c cs ih =>
      intro z ts h
      by_cases hc : p c
      · rw [List.dropWhile_cons_of_pos hc] at h
        exact ih z ts h
      · rw [List.dropWhile_cons_of_neg hc] at h
        obtain ⟨rfl, -⟩ := List.cons.inj h
        simpa using hc

/-- C8: when the item sequence begins with indented items before any
indent-zero item, `group_todos_by_hierarchy` does not reject the input:
the leading indented run becomes the first group (whose first element has
nonzero indent), the rest is grouped as usual, every later group starts
with an indent-zero item, and there are exactly as many later groups as
indent-zero items. -/
theorem c8_leading_indented (todos : List TodoItem) (h : todos ≠ [])
    (h0 : todos.headI.indent ≠ 0) :
    group_todos_by_hierarchy todos
      = todos.takeWhile (fun t => !(t.indent == 0))
        :: group_todos_by_hierarchy (todos.dropWhile (fun t => !(t.indent == 0)))
    ∧ todos.takeWhile (fun t => !(t.indent == 0)) ≠ []
    ∧ (todos.takeWhile (fun t => !(t.indent == 0))).headI.indent ≠ 0
    ∧ (∀ g ∈ group_todos_by_hierarchy (todos.dropWhile (fun t => !(t.indent == 0))),
        g ≠ [] ∧ g.headI.indent = 0)
    ∧ (group_todos_by_hierarchy (todos.dropWhile (fun t => !(t.indent == 0)))).length
      = (todos.dropWhile (fun t => !(t.indent == 0))).countP (fun t => t.indent == 0) := by
  cases todos with
  | nil => exact absurd rfl h
  | cons t rest =>
    have ht : t.indent ≠ 0 := h0
    have hpt : (!(t.indent == 0)) = true := by simp [ht]
    have hpre_mem : ∀ x ∈ (t :: rest).takeWhile (fun t => !(t.indent == 0)), x.indent ≠ 0 := by
      intro x hx
      have := List.mem_takeWhile_imp hx
      simpa using this
    have hpre_ne : (t :: rest).takeWhile (fun t => !(t.indent == 0)) ≠ [] := by
      simp [List.takeWhile_cons, hpt]
    have hsplit : ((t :: rest).takeWhile (fun t => !(t.indent == 0)))
        ++ ((t :: rest).dropWhile (fun t => !(t.indent == 0))) = t :: rest :=
      List.takeWhile_append_dropWhile _ _
    have hmain : group_todos_by_hierarchy (t :: rest)
        = group_aux ((t :: rest).takeWhile (fun t => !(t.indent == 0)))
            ((t :: rest).dropWhile (fun t => !(t.indent == 0))) := by
      rw [group_todos_by_hierarchy]
      conv_lhs => rw [← hsplit]
      rw [group_aux_append_indented _ [] _ hpre_mem]
      rfl
    cases hpost : (t :: rest).dropWhile (fun t => !(t.indent == 0)) with
    | nil =>
        rw [hpost] at hmain
        refine ⟨?_, hpre_ne, ?_, ?_, ?_⟩
        · rw [hmain, group_aux]
          simp [List.isEmpty_iff, hpre_ne, group_todos_by_hierarchy, group_aux]
        · cases hpre : (t :: rest).takeWhile (fun t => !(t.indent == 0)) with
          | nil => exact absurd hpre hpre_ne
          | cons a as =>
              have : a.indent ≠ 0 := hpre_mem a (by rw [hpre]; simp)
              simpa using this
        · intro g hg
          simp [group_todos_by_hierarchy, group_aux] at hg
        · simp [group_todos_by_hierarchy, group_aux]
    | cons z zs =>
        have hz : z.indent = 0 := by
          have := dropWhile_head_not _ _ _ _ hpost
          simpa using this
        rw [hpost] at hmain
        have hstep : group_aux ((t :: rest).takeWhile (fun t => !(t.indent == 0))) (z :: zs)
            = ((t :: rest).takeWhile (fun t => !(t.indent == 0))) :: group_aux [z] zs := by
          rw [group_aux]
          simp [hz, List.isEmpty_iff, hpre_ne]
        have hpost_groups : group_todos_by_hierarchy (z :: zs) = group_aux [z] zs := by
          rw [group_todos_by_hierarchy, group_aux]
          simp [hz]
        refine ⟨?_, hpre_ne, ?_, ?_, ?_⟩
        · rw [hmain, hstep, hpost_groups]
        · cases hpre : (t :: rest).takeWhile (fun t => !(t.indent == 0)) with
          | nil => exact absurd hpre hpre_ne
          | cons a as =>
              have : a.indent ≠ 0 := hpre_mem a (by rw [hpre]; simp)
              simpa using this
        · intro g hg
          rw [hpost_groups] at hg
          exact group_aux_heads zs z [] hz g hg
        · rw [hpost_groups, group_aux_length zs [z] (by simp)]
          simp [List.countP_cons, hz]
          omega

/-- Witness for C8 on a concrete sequence starting with an indented
item. -/
theorem c8_witness :
    ([⟨5, 2, true, "sub", "s"⟩, ⟨6, 0, false, "top", "t"⟩] : List TodoItem) ≠ []
    ∧ ([⟨5, 2, true, "sub", "s"⟩, ⟨6, 0, false, "top", "t"⟩] : List TodoItem).headI.indent ≠ 0
    ∧ (group_todos_by_hierarchy [⟨5, 2, true, "sub", "s"⟩, ⟨6, 0, false, "top", "t"⟩]
        = ([⟨5, 2, true, "sub", "s"⟩, ⟨6, 0, false, "top", "t"⟩] : List TodoItem).takeWhile
            (fun t => !(t.indent == 0))
          :: group_todos_by_hierarchy
            (([⟨5, 2, true, "sub", "s"⟩, ⟨6, 0, false, "top", "t"⟩] : List TodoItem).dropWhile
              (fun t => !(t.indent == 0)))
       ∧ ([⟨5, 2, true, "sub", "s"⟩, ⟨6, 0, false, "top", "t"⟩] : List TodoItem).takeWhile
            (fun t => !(t.indent == 0)) ≠ []
       ∧ (([⟨5, 2, true, "sub", "s"⟩, ⟨6, 0, false, "top", "t"⟩] : List TodoItem).takeWhile
            (fun t => !(t.indent == 0))).headI.indent ≠ 0
       ∧ (∀ g ∈ group_todos_by_hierarchy
            (([⟨5, 2, true, "sub", "s"⟩, ⟨6, 0, false, "top", "t"⟩] : List TodoItem).dropWhile
              (fun t => !(t.indent == 0))), g ≠ [] ∧ g.headI.indent = 0)
       ∧ (group_todos_by_hierarchy
            (([⟨5, 2, true, "sub", "s"⟩, ⟨6, 0, false, "top", "t"⟩] : List TodoItem).dropWhile
              (fun t => !(t.indent == 0)))).length
          = (([⟨5, 2, true, "sub", "s"⟩, ⟨6, 0, false, "top", "t"⟩] : List TodoItem).dropWhile
              (fun t => !(t.indent == 0))).countP (fun t => t.indent == 0)) :=
  ⟨by decide, by decide,
    c8_leading_indented [⟨5, 2, true, "sub", "s"⟩, ⟨6, 0, false, "top", "t"⟩]
      (by decide) (by decide)⟩



theorem isPySpace_space : isPySpace ' ' = true := by decide

theorem isPySpace_dash : isPySpace '-' = false := by decide

theorem takeWhile_replicate_space (n : Nat) (c0 : Char) (rest : List Char)
    (h : isPySpace c0 = false) :
    (List.replicate n ' ' ++ (c0 :: rest)).takeWhile isPySpace = List.replicate n ' ' := by
  induction n with
  | zero => simp [List.takeWhile_cons, h]
  | succ n ih => simp [List.replicate_succ, List.takeWhile_cons, isPySpace_space, ih]

theorem dropWhile_replicate_space (n : Nat) (c0 : Char) (rest : List Char)
    (h : isPySpace c0 = false) :
    (List.replicate n ' ' ++ (c0 :: rest)).dropWhile isPySpace = c0 :: rest := by
  induction n with
  | zero => simp [List.dropWhile_cons, h]
  | succ n ih => simp [List.replicate_succ, List.dropWhile_cons, isPySpace_space, ih]

theorem dateDigits_no_newline (ds : String) (hds : isDateDigits ds = true) :
    ∀ c ∈ ds.data, c ≠ '\n' := by
  obtain ⟨a, b, c, d, f, g, i, j, hdata, ha, hb, hc, hd, hf, hg, hi, hj⟩ :=
    isDateDigits_shape ds hds
  intro ch hch
  rw [hdata] at hch
  have digit_ne : ∀ x : Char, x.isDigit = true → x ≠ '\n' := by
    intro x hx hne
    subst hne
    exact absurd hx (by decide)
  simp only [List.mem_cons, List.not_mem_nil, or_false] at hch
  rcases hch with rfl | rfl | rfl | rfl | rfl | rfl | rfl | rfl | rfl | rfl
  · exact digit_ne _ ha
  · exact digit_ne _ hb
  · exact digit_ne _ hc
  · exact digit_ne _ hd
  · decide
  · exact digit_ne _ hf
  · exact digit_ne _ hg
  · decide
  · exact digit_ne _ hi
  · exact digit_ne _ hj

theorem format_data (todo : TodoItem) (ds : String) :
    (format_migrated_todo todo ds).data
      = List.replicate todo.indent ' '
        ++ ('-' :: ' ' :: '[' :: (if todo.completed then 'x' else ' ') :: ']' :: ' '
            :: (tagged_text todo.text ds).data) := by
  cases hc : todo.completed <;>
    simp [format_migrated_todo, hc, str_data_append]

theorem tagged_text_ne_nil (text ds : String) (h1 : text.data ≠ []) :
    (tagged_text text ds).data ≠ [] := by
  rw [tagged_text]
  split
  · exact h1
  · simp only [str_data_append]
    intro hx
    exact h1 (List.append_eq_nil.mp (List.append_eq_nil.mp (List.append_eq_nil.mp hx).1).1).1

theorem tagged_text_no_newline (text ds : String)
    (h2 : ∀ c ∈ text.data, c ≠ '\n') (hds : isDateDigits ds = true) :
    ∀ c ∈ (tagged_text text ds).data, c ≠ '\n' := by
  have hlit : ∀ x ∈ " (from ".data, x ≠ '\n' := by decide
  have hpar : ∀ x ∈ ")".data, x ≠ '\n' := by decide
  rw [tagged_text]
  split
  · exact h2
  · simp only [str_data_append]
    intro c hc
    simp only [List.mem_append] at hc
    rcases hc with ((hc | hc) | hc) | hc
    · exact h2 c hc
    · exact hlit c hc
    · exact dateDigits_no_newline ds hds c hc
    · exact hpar c hc

/-- C2: round trip. For every item whose text is nonempty and contains no
newline (every item produced by the parser has this shape) and every date
string of the strftime shape, rendering the item with
`format_migrated_todo` and re-parsing the rendered line with the checklist
pattern of `parse_todo_section` yields the same indent count and the same
completed flag (so migration never resets a completed sub-item), and the
same text except for the possibly appended provenance tag. -/
theorem c2_round_trip (todo : TodoItem) (ds : String)
    (h1 : todo.text.data ≠ [])
    (h2 : ∀ c ∈ todo.text.data, c ≠ '\n')
    (hds : isDateDigits ds = true) :
    parse_checklist_line (format_migrated_todo todo ds).data
      = some (todo.indent, todo.completed, tagged_text todo.text ds)
    ∧ (tagged_text todo.text ds = todo.text
       ∨ tagged_text todo.text ds = todo.text ++ " (from " ++ ds ++ ")") := by
  constructor
  · have hne : (tagged_text todo.text ds).data ≠ [] := tagged_text_ne_nil todo.text ds h1
    have hnl : ∀ c ∈ (tagged_text todo.text ds).data, c ≠ '\n' :=
      tagged_text_no_newline todo.text ds h2 hds
    have hcond : (tagged_text todo.text ds).data ≠ []
        ∧ ∀ c ∈ (tagged_text todo.text ds).data, c ≠ '\n' := ⟨hne, hnl⟩
    rw [parse_checklist_line, format_data]
    cases hc : todo.completed
    · rw [takeWhile_replicate_space _ _ _ isPySpace_dash,
        dropWhile_replicate_space _ _ _ isPySpace_dash]
      simp only [List.length_replicate]
      rw [matchTextToEnd, if_pos hcond]
      simp
    · rw [takeWhile_replicate_space _ _ _ isPySpace_dash,
        dropWhile_replicate_space _ _ _ isPySpace_dash]
      simp only [List.length_replicate]
      rw [matchTextToEnd, if_pos hcond]
      simp
  · rw [tagged_text]
    split
    · exact Or.inl rfl
    · exact Or.inr rfl

/-- Witness for C2 at a concrete completed sub-item and date. -/
theorem c2_witness :
    ("call bank" : String).data ≠ []
    ∧ (∀ c ∈ ("call bank" : String).data, c ≠ '\n')
    ∧ isDateDigits "2025-08-01" = true
    ∧ (parse_checklist_line
        (format_migrated_todo ⟨3, 2, true, "call bank", "  - [x] call bank"⟩ "2025-08-01").data
        = some (2, true, tagged_text "call bank" "2025-08-01")
       ∧ (tagged_text "call bank" "2025-08-01" = "call bank"
          ∨ tagged_text "call bank" "2025-08-01" = "call bank" ++ " (from " ++ "2025-08-01" ++ ")")) :=
  ⟨by decide, by decide, by decide,
    c2_round_trip ⟨3, 2, true, "call bank", "  - [x] call bank"⟩ "2025-08-01"
      (by decide) (by decide) (by decide)⟩


end ObsidianTools
